import Mathlib

/-!
A verification development for the catalog-to-DDL synthesis engine of a
database backup tool.  The table fact model below is translated from the
Go source file that defines the Table aggregate and its helpers; the
rendering and parsing components (identifier model, privilege model,
object metadata renderer, constraint renderer, dependency-ordered object
renderer) are present in the repository only through their tests, so they
are modelled from the specification, as marked on each definition.
-/

set_option maxRecDepth 4000

/-- Special characters used by the identifier and privilege models.
The double quote character. -/
def dqc : Char := Char.ofNat 34

/-- The single quote character. -/
def sqc : Char := Char.ofNat 39

/-- The double quote character as a one-character string. -/
def dqs : String := String.mk [dqc]

/-- The single quote character as a one-character string. -/
def sqs : String := String.mk [sqc]

/- ### Table fact model, translated from the Go source (metadata assembly file) -/

/-- Minimal relation identity, as used by the Table aggregate:
schema oid, relation oid, schema name, relation name. -/
structure Relation where
  SchemaOid : Nat := 0
  Oid : Nat := 0
  Schema : String := ""
  Name : String := ""
deriving DecidableEq

/-- Partition level facts: oid, level (p, l or i) and root partition name. -/
structure PartitionLevelInfo where
  Oid : Nat := 0
  Level : String := ""
  RootName : String := ""
deriving DecidableEq

/-- A child partition whose schema differs from the root partition. -/
structure AlteredPartitionRelation where
  OldSchema : String := ""
  NewSchema : String := ""
  Name : String := ""
deriving DecidableEq

/-- Per-attribute column facts.  The column type text field is called
Type in the source; Lean reserves that word, so it is named ColType here. -/
structure ColumnDefinition where
  Oid : Nat := 0
  Num : Int := 0
  Name : String := ""
  NotNull : Bool := false
  HasDefault : Bool := false
  ColType : String := ""
  Encoding : String := ""
  StatTarget : Int := 0
  StorageType : String := ""
  DefaultVal : String := ""
  Comment : String := ""
  Privileges : Option String := none
  Kind : String := ""
  Options : String := ""
  FdwOptions : String := ""
  Collation : String := ""
  SecurityLabelProvider : String := ""
  SecurityLabel : String := ""
deriving DecidableEq

/-- External table definition.  Only the oid is relevant to the claims
about the Table aggregate; the remaining fields of the source struct are
defined in a file that is not part of the excerpt and are not consulted
by any function modelled here. -/
structure ExternalTableDefinition where
  Oid : Nat := 0
deriving DecidableEq

/-- Foreign table definition: oid, serialized options, server name.
The zero value (all fields at their defaults) plays the role of the Go
zero struct against which the source compares. -/
structure ForeignTableDefinition where
  Oid : Nat := 0
  Options : String := ""
  Server : String := ""
deriving DecidableEq

/-- Aggregate per-table definition facts, translated field by field from
the Go struct. -/
structure TableDefinition where
  DistPolicy : String := ""
  PartDef : String := ""
  PartTemplateDef : String := ""
  StorageOpts : String := ""
  TablespaceName : String := ""
  ColumnDefs : List ColumnDefinition := []
  IsExternal : Bool := false
  ExtTableDef : ExternalTableDefinition := {}
  PartitionLevelInfo : PartitionLevelInfo := {}
  TableType : String := ""
  IsUnlogged : Bool := false
  ForeignDef : ForeignTableDefinition := {}
  Inherits : List String := []
  ReplicaIdentity : String := ""
  PartitionAlteredSchemas : List AlteredPartitionRelation := []
deriving DecidableEq

/-- A Table embeds a Relation and a TableDefinition, as in the Go source. -/
structure Table extends Relation, TableDefinition
deriving DecidableEq

/-- A table of contents metadata entry, as built by GetMetadataEntry. -/
structure MetadataEntry where
  Schema : String := ""
  Name : String := ""
  ObjectType : String := ""
  ReferenceObject : String := ""
  StartByte : Nat := 0
  EndByte : Nat := 0
deriving DecidableEq

/-- Translated from the Go source: a table is skipped by the data copy
phase when it is external or its foreign table definition differs from
the zero value. -/
def Table.SkipDataBackup (t : Table) : Bool :=
  t.IsExternal || t.ForeignDef != ({} : ForeignTableDefinition)

/-- Translated from the Go source: the section tag and table of contents
entry for a table; the object type is FOREIGN TABLE exactly when the
foreign table definition is non-zero. -/
def Table.GetMetadataEntry (t : Table) : String × MetadataEntry :=
  let objectType := if t.ForeignDef != ({} : ForeignTableDefinition) then "FOREIGN TABLE" else "TABLE"
  ("predata",
    { Schema := t.Schema
      Name := t.Name
      ObjectType := objectType
      ReferenceObject := ""
      StartByte := 0
      EndByte := 0 })

/- ### Identifier model.  The identifier functions exist in the
repository only through their tests, so they are modelled from the
specification section on the identifier model. -/

/-- The schema separator character, reserved for qualified names. -/
def sepc : Char := '.'

/-- Modelled from the spec: the safe identifier characters are letters,
digits and the underscore; any other character forces quoting. -/
def safeChar (c : Char) : Bool := c.isAlphanum || c == '_'

/-- Modelled from the spec: double every embedded double quote while
rendering a quoted identifier. -/
def escQuotes : List Char → List Char
  | [] => []
  | c :: cs => if c = dqc then dqc :: dqc :: escQuotes cs else c :: escQuotes cs

/-- Modelled from the spec: collapse doubled double quotes while parsing
a quoted identifier. -/
def unescQuotes : List Char → List Char
  | [] => []
  | [c] => [c]
  | c :: c2 :: cs =>
      if c = dqc then
        if c2 = dqc then dqc :: unescQuotes cs else c :: unescQuotes (c2 :: cs)
      else c :: unescQuotes (c2 :: cs)


/-- Inner text of a quoted identifier is properly doubled: every double
quote occurs as one half of an adjacent pair. -/
def properQuoting : List Char → Bool
  | [] => true
  | [c] => c != dqc
  | c :: c2 :: cs =>
      if c = dqc then
        if c2 = dqc then properQuoting cs else false
      else properQuoting (c2 :: cs)

/-- The schema entity: object id and name. -/
structure Schema where
  Oid : Nat := 0
  Name : String := ""
deriving DecidableEq

/-- Modelled from the spec: render the bare name when it matches the
safe identifier pattern, otherwise wrap it in double quotes, doubling
any embedded double quote. -/
def Schema.ToString (s : Schema) : String :=
  if !s.Name.data.isEmpty && s.Name.data.all safeChar then s.Name
  else String.mk (dqc :: (escQuotes s.Name.data ++ [dqc]))

/-- Modelled from the spec: parse a possibly quoted identifier into a
Schema with oid zero; strip surrounding quotes and collapse doubled
quotes, or fail when the input carries an unquoted schema separator or
a stray double quote. -/
def SchemaFromString (s : String) : Option Schema :=
  match s.data with
  | [] => none
  | c :: rest =>
      if c = dqc then
        if rest.getLast? == some dqc && !rest.dropLast.isEmpty then
          some { Oid := 0, Name := String.mk (unescQuotes rest.dropLast) }
        else none
      else
        if (c :: rest).all (fun ch => ch != sepc && ch != dqc) then
          some { Oid := 0, Name := String.mk (c :: rest) }
        else none

/-- Modelled from the spec: the validly quoted or bare identifiers.  A
bare identifier is a nonempty run of safe characters; a quoted
identifier wraps a nonempty properly doubled text whose unescaped form
needs quoting. -/
def isValidIdentifier (s : String) : Bool :=
  match s.data with
  | [] => false
  | c :: rest =>
      if c = dqc then
        rest.getLast? == some dqc
          && !rest.dropLast.isEmpty
          && properQuoting rest.dropLast
          && !(unescQuotes rest.dropLast).all safeChar
      else (c :: rest).all safeChar

/-- A validly quoted identifier used to exercise the round trip. -/
def validQuotedExample : String := dqs ++ "schema,name" ++ dqs

/- ### Privilege model.  The privilege parsing and rendering functions
exist in the repository only through their tests, so they are modelled
from the specification section on the privilege model. -/

/-- The grant option marker character of a privilege string. -/
def star : Char := '*'

/-- The privilege kinds tracked by an access control record. -/
inductive PrivKind where
  | select
  | insert
  | update
  | delete
  | truncate
  | references
  | trigger
  | execute
  | usage
  | create
  | temporary
  | connect
deriving DecidableEq

/-- Modelled from the spec: the fixed canonical keyword of each
privilege kind. -/
def PrivKind.keyword : PrivKind → String
  | .select => "SELECT"
  | .insert => "INSERT"
  | .update => "UPDATE"
  | .delete => "DELETE"
  | .truncate => "TRUNCATE"
  | .references => "REFERENCES"
  | .trigger => "TRIGGER"
  | .execute => "EXECUTE"
  | .usage => "USAGE"
  | .create => "CREATE"
  | .temporary => "TEMPORARY"
  | .connect => "CONNECT"

/-- One access control record per grantee per object, with a granted
and a granted-with-grant-option flag per privilege kind.  An empty
grantee denotes PUBLIC. -/
structure ACL where
  Grantee : String := ""
  Select : Bool := false
  SelectWithGrant : Bool := false
  Insert : Bool := false
  InsertWithGrant : Bool := false
  Update : Bool := false
  UpdateWithGrant : Bool := false
  Delete : Bool := false
  DeleteWithGrant : Bool := false
  Truncate : Bool := false
  TruncateWithGrant : Bool := false
  References : Bool := false
  ReferencesWithGrant : Bool := false
  Trigger : Bool := false
  TriggerWithGrant : Bool := false
  Execute : Bool := false
  ExecuteWithGrant : Bool := false
  Usage : Bool := false
  UsageWithGrant : Bool := false
  Create : Bool := false
  CreateWithGrant : Bool := false
  Temporary : Bool := false
  TemporaryWithGrant : Bool := false
  Connect : Bool := false
  ConnectWithGrant : Bool := false
deriving DecidableEq

/-- The granted flag of a capability. -/
def ACL.granted (a : ACL) : PrivKind → Bool
  | .select => a.Select
  | .insert => a.Insert
  | .update => a.Update
  | .delete => a.Delete
  | .truncate => a.Truncate
  | .references => a.References
  | .trigger => a.Trigger
  | .execute => a.Execute
  | .usage => a.Usage
  | .create => a.Create
  | .temporary => a.Temporary
  | .connect => a.Connect

/-- The granted-with-grant-option flag of a capability. -/
def ACL.grantedWithGrant (a : ACL) : PrivKind → Bool
  | .select => a.SelectWithGrant
  | .insert => a.InsertWithGrant
  | .update => a.UpdateWithGrant
  | .delete => a.DeleteWithGrant
  | .truncate => a.TruncateWithGrant
  | .references => a.ReferencesWithGrant
  | .trigger => a.TriggerWithGrant
  | .execute => a.ExecuteWithGrant
  | .usage => a.UsageWithGrant
  | .create => a.CreateWithGrant
  | .temporary => a.TemporaryWithGrant
  | .connect => a.ConnectWithGrant

/-- A grantee holds a privilege when it is granted with or without the
grant option. -/
def ACL.held (a : ACL) (p : PrivKind) : Bool := a.granted p || a.grantedWithGrant p

/-- Modelled from the spec: set the capability selected by one
privilege character, on the with-grant side when the character was
followed by the grant option marker. -/
def applyPriv (acl : ACL) (c : Char) (wg : Bool) : ACL :=
  match c with
  | 'r' => if wg then { acl with SelectWithGrant := true } else { acl with Select := true }
  | 'a' => if wg then { acl with InsertWithGrant := true } else { acl with Insert := true }
  | 'w' => if wg then { acl with UpdateWithGrant := true } else { acl with Update := true }
  | 'd' => if wg then { acl with DeleteWithGrant := true } else { acl with Delete := true }
  | 'D' => if wg then { acl with TruncateWithGrant := true } else { acl with Truncate := true }
  | 'x' => if wg then { acl with ReferencesWithGrant := true } else { acl with References := true }
  | 't' => if wg then { acl with TriggerWithGrant := true } else { acl with Trigger := true }
  | 'X' => if wg then { acl with ExecuteWithGrant := true } else { acl with Execute := true }
  | 'U' => if wg then { acl with UsageWithGrant := true } else { acl with Usage := true }
  | 'C' => if wg then { acl with CreateWithGrant := true } else { acl with Create := true }
  | 'T' => if wg then { acl with TemporaryWithGrant := true } else { acl with Temporary := true }
  | 'c' => if wg then { acl with ConnectWithGrant := true } else { acl with Connect := true }
  | _ => acl

/-- Modelled from the spec: scan the privilege characters left to
right; a character followed by the grant option marker sets the
with-grant flag of its capability, any other recognized character sets
the granted flag. -/
def scanPrivChars : List Char → ACL → ACL
  | [], acl => acl
  | [c], acl => applyPriv acl c false
  | c :: c2 :: cs, acl =>
      if c2 = star then scanPrivChars cs (applyPriv acl c true)
      else scanPrivChars (c2 :: cs) (applyPriv acl c false)

/-- Split a raw ACL encoding at the first equals sign; fail when there
is none. -/
def splitAtEq : List Char → Option (List Char × List Char)
  | [] => none
  | c :: cs =>
      if c = '=' then some ([], cs)
      else
        match splitAtEq cs with
        | some p => some (c :: p.1, p.2)
        | none => none

/-- The privilege characters extend up to the grantor separator. -/
def takeUntilSlash : List Char → List Char
  | [] => []
  | c :: cs => if c = '/' then [] else c :: takeUntilSlash cs

/-- Modelled from the spec: a grantee segment is either empty, denoting
PUBLIC, a quoted name whose doubled quotes are collapsed, or a bare
name; a malformed quoting fails. -/
def parseGrantee (cs : List Char) : Option (List Char) :=
  match cs with
  | [] => some []
  | c :: rest =>
      if c = dqc then
        if rest.getLast? == some dqc && !rest.dropLast.isEmpty then
          some (unescQuotes rest.dropLast)
        else none
      else some (c :: rest)

/-- Modelled from the spec: parse one grantee equals privilege
characters slash grantor encoding into an access control record; the
empty encoding, denoting pure default privileges, yields none. -/
def ParseACL (s : String) : Option ACL :=
  match splitAtEq s.data with
  | none => none
  | some (granteeRaw, rest) =>
      match parseGrantee granteeRaw with
      | none => none
      | some g => some (scanPrivChars (takeUntilSlash rest) { Grantee := String.mk g })

/-- The complete metadata bundle of one object. -/
structure ObjectMetadata where
  Owner : String := ""
  Comment : String := ""
  Privileges : List ACL := []
  SecurityLabelProvider : String := ""
  SecurityLabel : String := ""
deriving DecidableEq

/-- Map from object id to metadata, as an association list. -/
abbrev MetadataMap := List (Nat × ObjectMetadata)

/-- Look up the metadata of an object; absent entries behave as the
empty metadata bundle. -/
def MetadataMap.get (m : MetadataMap) (oid : Nat) : ObjectMetadata :=
  match m.find? (fun p => p.1 == oid) with
  | some p => p.2
  | none => {}

/-- Double any single quote inside comment text. -/
def escSingleQuotes : List Char → List Char
  | [] => []
  | c :: cs => if c = sqc then sqc :: sqc :: escSingleQuotes cs else c :: escSingleQuotes cs

/-- The escaped form of a comment, safe inside single quotes. -/
def escapeComment (s : String) : String := String.mk (escSingleQuotes s.data)

/-- Modelled from the spec: privilege kinds relevant to an object
type.  The TABLE row is fixed by the rendering scenarios; other object
types default to every privilege kind of the record. -/
def privKindsFor (objType : String) : List PrivKind :=
  if objType == "TABLE" then
    [.select, .insert, .update, .delete, .truncate, .references, .trigger]
  else
    [.select, .insert, .update, .delete, .truncate, .references, .trigger,
     .execute, .usage, .create, .temporary, .connect]

/-- A grantee holds a full privilege set when it holds every privilege
kind relevant to the object type. -/
def ACL.hasAllPrivileges (a : ACL) (objType : String) : Bool :=
  (privKindsFor objType).all a.held

/-- An empty grantee renders as PUBLIC. -/
def granteeOrPublic (g : String) : String := if g == "" then "PUBLIC" else g

/-- Modelled from the spec: the with-grant-option suffix appears
exactly when every privilege held by the grantee carries the grant
option flag. -/
def grantSuffix (a : ACL) (objType : String) : String :=
  if ((privKindsFor objType).filter a.held).all a.grantedWithGrant then " WITH GRANT OPTION"
  else ""

/-- Modelled from the spec: ALL when the grantee holds every privilege
kind, otherwise the held privilege keywords joined by commas in
canonical order. -/
def grantPrivText (a : ACL) (objType : String) : String :=
  if a.hasAllPrivileges objType then "ALL"
  else String.intercalate "," (((privKindsFor objType).filter a.held).map PrivKind.keyword)

/-- Modelled from the spec: the single grant statement of one grantee. -/
def grantStatement (a : ACL) (name objType : String) : String :=
  "GRANT " ++ grantPrivText a objType ++ " ON " ++ objType ++ " " ++ name ++ " TO "
    ++ granteeOrPublic a.Grantee ++ grantSuffix a objType ++ ";"

/-- The unconditional revoke of public privileges. -/
def revokePublicStatement (name objType : String) : String :=
  "REVOKE ALL ON " ++ objType ++ " " ++ name ++ " FROM PUBLIC;"

/-- The revoke of the default privileges of the owner. -/
def revokeOwnerStatement (name objType owner : String) : String :=
  "REVOKE ALL ON " ++ objType ++ " " ++ name ++ " FROM " ++ owner ++ ";"

/-- Modelled from the spec: the per owner revoke is emitted only when
the object has an owner that appears among the grantees with a non
full privilege set. -/
def ownerNeedsRevoke (m : ObjectMetadata) (objType : String) : Bool :=
  m.Owner != ""
    && m.Privileges.any (fun a => a.Grantee == m.Owner && !(a.hasAllPrivileges objType))

/-- The revoke statements that precede the grant statements. -/
def revokeStatements (m : ObjectMetadata) (name objType : String) : List String :=
  if m.Privileges.isEmpty then []
  else
    revokePublicStatement name objType ::
      (if ownerNeedsRevoke m objType then [revokeOwnerStatement name objType m.Owner] else [])

/-- Modelled from the spec: the ordered privilege statements of one
object; the public revoke comes first, then the conditional owner
revoke, then one grant statement per grantee in list order. -/
def privilegeStatements (m : ObjectMetadata) (name objType : String) : List String :=
  if m.Privileges.isEmpty then []
  else
    revokePublicStatement name objType ::
      ((if ownerNeedsRevoke m objType then [revokeOwnerStatement name objType m.Owner] else [])
        ++ m.Privileges.map (fun a => grantStatement a name objType))

/-- The comment block of one object. -/
def commentStatement (m : ObjectMetadata) (name objType : String) : String :=
  if m.Comment == "" then ""
  else "COMMENT ON " ++ objType ++ " " ++ name ++ " IS " ++ sqs ++ escapeComment m.Comment ++ sqs ++ ";"

/-- The ownership block of one object. -/
def ownerStatement (m : ObjectMetadata) (name objType : String) : String :=
  if m.Owner == "" then ""
  else "ALTER " ++ objType ++ " " ++ name ++ " OWNER TO " ++ m.Owner ++ ";"

/-- The privilege block of one object: its statements on consecutive
lines. -/
def privilegeBlock (m : ObjectMetadata) (name objType : String) : String :=
  String.intercalate "\n" (privilegeStatements m name objType)

/-- Modelled from the spec: the full metadata rendering of one object;
the non empty blocks appear in the order comment, owner, privileges,
separated by exactly one blank line, and an object with no metadata
renders as the empty string. -/
def PrintObjectMetadata (m : ObjectMetadata) (name objType : String) : String :=
  String.intercalate "\n\n"
    (([commentStatement m name objType, ownerStatement m name objType,
       privilegeBlock m name objType]).filter (fun b => b != ""))

/-- Grantee holding every TABLE privilege, from the rendering scenario. -/
def aclAllTable : ACL :=
  { Grantee := "anothertestrole", Select := true, Insert := true, Update := true,
    Delete := true, Truncate := true, References := true, Trigger := true }

/-- Grantee holding every TABLE privilege but trigger. -/
def aclMostTable : ACL :=
  { Grantee := "testrole", Select := true, Insert := true, Update := true,
    Delete := true, Truncate := true, References := true }

/-- PUBLIC grantee holding only the trigger privilege. -/
def aclSingleTable : ACL := { Grantee := "", Trigger := true }

/-- Grantee holding every TABLE privilege with the grant option. -/
def aclAllTableWithGrant : ACL :=
  { Grantee := "anothertestrole", SelectWithGrant := true, InsertWithGrant := true,
    UpdateWithGrant := true, DeleteWithGrant := true, TruncateWithGrant := true,
    ReferencesWithGrant := true, TriggerWithGrant := true }

/-- Grantee holding every TABLE privilege but trigger, with the grant
option. -/
def aclMostTableWithGrant : ACL :=
  { Grantee := "testrole", SelectWithGrant := true, InsertWithGrant := true,
    UpdateWithGrant := true, DeleteWithGrant := true, TruncateWithGrant := true,
    ReferencesWithGrant := true }

/-- The privilege list of the rendering scenario. -/
def tablePrivileges : List ACL := [aclAllTable, aclMostTable, aclSingleTable]

/-- Metadata carrying a comment, an owner and the scenario privileges. -/
def tableMetadataExample : ObjectMetadata :=
  { Owner := "testrole", Comment := "This is a table comment.", Privileges := tablePrivileges }

/-- Metadata carrying only the scenario privileges and their owner. -/
def ownerPrivMetadata : ObjectMetadata :=
  { Owner := "testrole", Privileges := tablePrivileges }

/-- The record expected from the privilege scan scenario. -/
def aclScanExpected : ACL :=
  { Grantee := "testrole", Insert := true, SelectWithGrant := true, UpdateWithGrant := true,
    DeleteWithGrant := true, Trigger := true, Execute := true, Usage := true,
    Create := true, Temporary := true, Connect := true }

/- ### Constraint renderer.  The constraint rendering function exists
in the repository only through its tests, so it is modelled from the
specification section on the constraint renderer. -/

/-- A table or domain constraint: oid, name, type code (u, p, f or c),
rendered clause text, owning object, domain and partition parent
flags. -/
structure Constraint where
  Oid : Nat := 0
  ConName : String := ""
  ConType : String := ""
  ConDef : String := ""
  OwningObject : String := ""
  IsDomainConstraint : Bool := false
  IsPartitionParent : Bool := false
deriving DecidableEq

/-- Modelled from the spec: a single left to right pass that appends
each foreign key constraint to the second list and every other
constraint to the first, preserving relative order. -/
def splitFkLoop (cs : List Constraint) : List Constraint × List Constraint :=
  cs.foldl
    (fun acc c => if c.ConType == "f" then (acc.1, acc.2 ++ [c]) else (acc.1 ++ [c], acc.2))
    ([], [])

/-- Modelled from the spec: the two phase emission order, every non
foreign key constraint before every foreign key constraint. -/
def constraintOrder (cs : List Constraint) : List Constraint :=
  (splitFkLoop cs).1 ++ (splitFkLoop cs).2

/-- Modelled from the spec: domain check constraints are skipped
entirely by the constraint renderer. -/
def eligibleConstraints (cs : List Constraint) : List Constraint :=
  (constraintOrder cs).filter (fun c => !c.IsDomainConstraint)

/-- Modelled from the spec: the alter table statement of one
constraint; the ONLY keyword is omitted for a partition parent. -/
def constraintStatement (c : Constraint) : String :=
  "ALTER TABLE " ++ (if c.IsPartitionParent then "" else "ONLY ") ++ c.OwningObject
    ++ " ADD CONSTRAINT " ++ c.ConName ++ " " ++ c.ConDef ++ ";"

/-- The comment block of a constraint, present when its metadata holds
a comment. -/
def constraintComment (m : MetadataMap) (c : Constraint) : List String :=
  let meta := MetadataMap.get m c.Oid
  if meta.Comment == "" then []
  else
    ["COMMENT ON CONSTRAINT " ++ c.ConName ++ " ON " ++ c.OwningObject ++ " IS " ++ sqs
      ++ escapeComment meta.Comment ++ sqs ++ ";"]

/-- Concatenation of statement lists. -/
def concatLists (xss : List (List String)) : List String :=
  xss.foldr (fun a b => a ++ b) []

/-- Modelled from the spec: the emitted constraint statements, one
alter table statement and an optional comment per eligible constraint,
in two phase order. -/
def PrintConstraintStatements (cs : List Constraint) (m : MetadataMap) : List String :=
  concatLists ((eligibleConstraints cs).map (fun c => constraintStatement c :: constraintComment m c))

/-- The unique constraint of the rendering scenario. -/
def uniqueOne : Constraint :=
  { Oid := 1, ConName := "tablename_i_key", ConType := "u", ConDef := "UNIQUE (i)",
    OwningObject := "public.tablename" }

/-- The foreign key constraint of the rendering scenario. -/
def foreignTwo : Constraint :=
  { ConName := "tablename_j_fkey", ConType := "f",
    ConDef := "FOREIGN KEY (j) REFERENCES other_tablename(b)",
    OwningObject := "public.tablename" }

/- ### Dependency ordered object renderer.  The renderer exists in the
repository only through its tests, so it is modelled from the
specification section on the dependency ordered object renderer. -/

/-- A function catalog record.  The source calls this struct Function;
that name clashes with the mathematical library, so it carries the Def
suffix here. -/
structure FunctionDef where
  Oid : Nat := 0
  SchemaName : String := ""
  FunctionName : String := ""
  FunctionBody : String := ""
  Arguments : String := ""
  IdentArgs : String := ""
  ResultType : String := ""
  Language : String := ""
deriving DecidableEq

/-- A type catalog record.  The source calls the kind field Type; Lean
reserves that word, so it is named Kind here; the composite attribute
list renders in declaration order. -/
structure Type' where
  Oid : Nat := 0
  TypeSchema : String := ""
  TypeName : String := ""
  Kind : String := ""
  Input : String := ""
  Output : String := ""
  AttName : String := ""
  AttType : String := ""
  BaseType : String := ""
  Atts : List (String × String) := []
deriving DecidableEq

/-- The relation identity consumed by the dependency ordered renderer. -/
structure RelationRef where
  RelationOid : Nat := 0
  SchemaName : String := ""
  RelationName : String := ""
deriving DecidableEq

/-- The closed variant of renderable object kinds. -/
inductive Sortable where
  | func : FunctionDef → Sortable
  | typ : Type' → Sortable
  | rel : RelationRef → Sortable
deriving DecidableEq

/-- The qualified name of a type. -/
def typeFQN (t : Type') : String := t.TypeSchema ++ "." ++ t.TypeName

/-- Whether a sortable is the domain owning the given qualified name. -/
def isOwningDomain (fqn : String) : Sortable → Bool
  | .typ t => t.Kind == "d" && typeFQN t == fqn
  | _ => false

/-- Modelled from the spec: the constraints a sortable inlines; only a
domain inlines constraints, namely those whose owning object is the
qualified name of the domain. -/
def inlinedConstraints (cs : List Constraint) : Sortable → List Constraint
  | .typ t =>
      if t.Kind == "d" then cs.filter (fun c => c.OwningObject == typeFQN t) else []
  | _ => []

/-- The inline constraint clause of a domain constraint. -/
def domainConstraintClause (c : Constraint) : String :=
  "\n\tCONSTRAINT " ++ c.ConName ++ " " ++ c.ConDef

/-- Concatenation of a list of strings. -/
def strConcat (xs : List String) : String := xs.foldr (fun a b => a ++ b) ""

/-- Modelled from the spec: the create domain statement, with one
inline constraint clause per constraint owned by the domain. -/
def renderDomain (t : Type') (cs : List Constraint) : String :=
  "CREATE DOMAIN " ++ typeFQN t ++ " AS " ++ t.BaseType
    ++ strConcat ((cs.filter (fun c => c.OwningObject == typeFQN t)).map domainConstraintClause)
    ++ ";"

/-- Modelled from the spec: the create function statement. -/
def renderFunction (f : FunctionDef) : String :=
  "CREATE FUNCTION " ++ f.SchemaName ++ "." ++ f.FunctionName ++ "(" ++ f.Arguments
    ++ ") RETURNS " ++ f.ResultType ++ " AS\n$_$" ++ f.FunctionBody ++ "$_$\nLANGUAGE "
    ++ f.Language ++ "\nCOST 0;"

/-- Modelled from the spec: the create statement of a base type. -/
def renderBaseType (t : Type') : String :=
  "CREATE TYPE " ++ typeFQN t ++ " (\n\tINPUT = " ++ t.Input ++ ",\n\tOUTPUT = " ++ t.Output
    ++ "\n);"

/-- Modelled from the spec: the create statement of a composite type;
an empty attribute list renders as an empty parenthesized body. -/
def renderCompositeType (t : Type') : String :=
  "CREATE TYPE " ++ typeFQN t ++ " AS (\n"
    ++ String.intercalate ",\n" (t.Atts.map (fun p => "\t" ++ p.1 ++ " " ++ p.2))
    ++ "\n);"

/-- Modelled from the spec: the create table statement, using the
distribution policy text verbatim. -/
def renderTable (r : RelationRef) (td : TableDefinition) : String :=
  "CREATE TABLE " ++ r.SchemaName ++ "." ++ r.RelationName ++ " (\n"
    ++ String.intercalate ",\n" (td.ColumnDefs.map (fun c => "\t" ++ c.Name ++ " " ++ c.ColType))
    ++ ") " ++ td.DistPolicy ++ ";"

/-- Keyed lookup of a table definition. -/
def lookupTableDef (tds : List (Nat × TableDefinition)) (oid : Nat) : Option TableDefinition :=
  match tds.find? (fun p => p.1 == oid) with
  | some p => some p.2
  | none => none

/-- The metadata block of one rendered object, absent when empty. -/
def metadataBlockList (m : MetadataMap) (oid : Nat) (name objType : String) : List String :=
  let md := PrintObjectMetadata (MetadataMap.get m oid) name objType
  if md == "" then [] else [md]

/-- The identity form of a function name, with identity argument
types. -/
def functionIdent (f : FunctionDef) : String :=
  f.SchemaName ++ "." ++ f.FunctionName ++ "(" ++ f.IdentArgs ++ ")"

/-- Modelled from the spec: dispatch on the variant of one sortable,
rendering its create statement followed by its metadata block; an
unsupported type kind or a missing table definition is fatal. -/
def renderSortable (m : MetadataMap) (tds : List (Nat × TableDefinition))
    (cs : List Constraint) : Sortable → Option (List String)
  | .func f => some (renderFunction f :: metadataBlockList m f.Oid (functionIdent f) "FUNCTION")
  | .typ t =>
      if t.Kind == "b" then some (renderBaseType t :: metadataBlockList m t.Oid (typeFQN t) "TYPE")
      else if t.Kind == "c" then
        some (renderCompositeType t :: metadataBlockList m t.Oid (typeFQN t) "TYPE")
      else if t.Kind == "d" then
        some (renderDomain t cs :: metadataBlockList m t.Oid (typeFQN t) "DOMAIN")
      else none
  | .rel r =>
      match lookupTableDef tds r.RelationOid with
      | some td =>
          some (renderTable r td ::
            metadataBlockList m r.RelationOid (r.SchemaName ++ "." ++ r.RelationName) "TABLE")
      | none => none

/-- Modelled from the spec: walk the dependency ordered sequence,
emitting the statements of each object; any fatal element aborts the whole
render. -/
def PrintCreateDependentTypeAndFunctionAndTablesStatements
    (objs : List Sortable) (m : MetadataMap) (tds : List (Nat × TableDefinition))
    (cs : List Constraint) : Option (List String) :=
  objs.foldr
    (fun o acc =>
      match renderSortable m tds cs o, acc with
      | some ss, some rest => some (ss ++ rest)
      | _, _ => none)
    (some [])

/-- The domain of the dependent rendering scenario. -/
def domainTypeExample : Type' :=
  { Oid := 4, TypeSchema := "public", TypeName := "domain", Kind := "d", BaseType := "numeric" }

/-- A domain check constraint owned by the scenario domain. -/
def domainCheckExample : Constraint :=
  { Oid := 6, ConName := "check1", ConType := "c", ConDef := "CHECK (VALUE <> 42::numeric)",
    OwningObject := "public.domain", IsDomainConstraint := true }

/-- The dependency ordered sequence of the rendering scenario. -/
def sortableExamples : List Sortable :=
  [Sortable.func
      { Oid := 1, SchemaName := "public", FunctionName := "function",
        FunctionBody := "SELECT $1 + $2", Arguments := "integer, integer",
        IdentArgs := "integer, integer", ResultType := "integer", Language := "sql" },
    Sortable.typ
      { Oid := 2, TypeSchema := "public", TypeName := "base", Kind := "b",
        Input := "typin", Output := "typout" },
    Sortable.typ { Oid := 3, TypeSchema := "public", TypeName := "composite", Kind := "c" },
    Sortable.typ domainTypeExample,
    Sortable.rel { RelationOid := 5, SchemaName := "public", RelationName := "relation" }]

/-- The table definitions of the rendering scenario. -/
def tableDefsExample : List (Nat × TableDefinition) :=
  [(5, { DistPolicy := "DISTRIBUTED RANDOMLY" })]

/-- C9: Table.SkipDataBackup returns true if and only if the table is
external or carries a non-zero foreign-table definition. -/
theorem skipDataBackup_iff_external_or_foreign (t : Table) :
    t.SkipDataBackup = true ↔
      (t.IsExternal = true ∨ t.ForeignDef ≠ ({} : ForeignTableDefinition)) := by
  simp [Table.SkipDataBackup, bne_iff_ne]

/-- C10: Table.GetMetadataEntry returns the section tag predata, an
object type that is FOREIGN TABLE exactly when the foreign-table
definition is non-zero and TABLE otherwise, an empty reference object,
and zero start and end bytes. -/
theorem getMetadataEntry_fields (t : Table) :
    (t.GetMetadataEntry).1 = "predata"
    ∧ ((t.GetMetadataEntry).2.ObjectType = "FOREIGN TABLE" ↔
        t.ForeignDef ≠ ({} : ForeignTableDefinition))
    ∧ ((t.GetMetadataEntry).2.ObjectType = "TABLE" ↔
        t.ForeignDef = ({} : ForeignTableDefinition))
    ∧ (t.GetMetadataEntry).2.ReferenceObject = ""
    ∧ (t.GetMetadataEntry).2.StartByte = 0
    ∧ (t.GetMetadataEntry).2.EndByte = 0 := by
  unfold Table.GetMetadataEntry
  by_cases h : t.ForeignDef = ({} : ForeignTableDefinition)
  · simp [h]
  · simp [h, bne_iff_ne]

theorem escQuotes_unescQuotes_bounded (n : Nat) :
    ∀ cs : List Char, cs.length ≤ n → properQuoting cs = true →
      escQuotes (unescQuotes cs) = cs := by
  induction n with
  | zero =>
    intro cs hlen _
    have hnil : cs = [] := List.length_eq_zero.mp (Nat.le_zero.mp hlen)
    subst hnil
    simp [unescQuotes, escQuotes]
  | succ n ih =>
    intro cs hlen hp
    rcases cs with _ | ⟨c, _ | ⟨c2, cs'⟩⟩
    · simp [unescQuotes, escQuotes]
    · simp only [properQuoting, bne_iff_ne, ne_eq, decide_eq_true_eq] at hp
      simp [unescQuotes, escQuotes, hp]
    · by_cases hc : c = dqc
      · subst hc
        by_cases hc2 : c2 = dqc
        · subst hc2
          simp only [properQuoting, if_pos rfl] at hp
          have hlen' : cs'.length ≤ n := by
            simp only [List.length_cons] at hlen
            omega
          simp [unescQuotes, escQuotes, ih cs' hlen' hp]
        · simp [properQuoting, hc2] at hp
      · simp only [properQuoting, if_neg hc] at hp
        have hlen' : (c2 :: cs').length ≤ n := by
          simp only [List.length_cons] at hlen ⊢
          omega
        simp [unescQuotes, escQuotes, hc, ih (c2 :: cs') hlen' hp]

theorem escQuotes_unescQuotes (cs : List Char) (hp : properQuoting cs = true) :
    escQuotes (unescQuotes cs) = cs :=
  escQuotes_unescQuotes_bounded cs.length cs (Nat.le_refl _) hp

theorem safeChar_ne_special (ch : Char) (h : safeChar ch = true) :
    ch ≠ sepc ∧ ch ≠ dqc := by
  constructor
  · intro he
    subst he
    exact absurd h (by decide)
  · intro he
    subst he
    exact absurd h (by decide)

/-- C8: every validly quoted or bare identifier survives the round trip
through SchemaFromString followed by Schema.ToString unchanged, where
Schema.ToString double quotes a name containing characters outside the
safe set and SchemaFromString strips surrounding quotes. -/
theorem schema_roundtrip (s : String) (h : isValidIdentifier s = true) :
    (SchemaFromString s).map Schema.ToString = some s := by
  obtain ⟨cs⟩ := s
  rcases cs with _ | ⟨c, rest⟩
  · simp [isValidIdentifier] at h
  · by_cases hc : c = dqc
    · subst hc
      simp only [isValidIdentifier, if_true, Bool.and_eq_true] at h
      obtain ⟨⟨⟨h1, h2⟩, h3⟩, h4⟩ := h
      have h1' : rest.getLast? = some dqc := by simpa using h1
      have h2' : rest.dropLast ≠ [] := by simpa using h2
      have h4' : (unescQuotes rest.dropLast).all safeChar = false := by simpa using h4
      have hcond : (rest.getLast? == some dqc && !rest.dropLast.isEmpty) = true := by
        simp [h1', h2']
      simp only [SchemaFromString, hcond, if_true, eq_self_iff_true, Option.map_some']
      have hname : (String.mk (unescQuotes rest.dropLast)).data = unescQuotes rest.dropLast := rfl
      have hbare :
          (!(String.mk (unescQuotes rest.dropLast)).data.isEmpty
            && (String.mk (unescQuotes rest.dropLast)).data.all safeChar) = false := by
        rw [hname, h4', Bool.and_false]
      simp only [Schema.ToString, hbare, Bool.false_eq_true, if_false]
      have hesc : escQuotes (unescQuotes rest.dropLast) = rest.dropLast :=
        escQuotes_unescQuotes _ h3
      have hsplit : rest.dropLast ++ [dqc] = rest :=
        List.dropLast_append_getLast? dqc (Option.mem_def.mpr h1')
      rw [hesc, hsplit]
    · simp only [isValidIdentifier, if_neg hc] at h
      have hcond : ((c :: rest).all fun ch => ch != sepc && ch != dqc) = true := by
        rw [List.all_eq_true] at h ⊢
        intro ch hch
        obtain ⟨hs1, hs2⟩ := safeChar_ne_special ch (h ch hch)
        simp [hs1, hs2]
      simp only [SchemaFromString, if_neg hc, if_pos hcond, Option.map_some']
      simp [Schema.ToString, h]

theorem schema_roundtrip_witness :
    isValidIdentifier validQuotedExample = true ∧
    (SchemaFromString validQuotedExample).map Schema.ToString = some validQuotedExample :=
  ⟨by decide, schema_roundtrip validQuotedExample (by decide)⟩

/-- C1: with a non-empty privilege list the rendered privilege block
starts with the unconditional public revoke; the per owner revoke
follows it exactly when the owner appears among the grantees holding a
non full privilege set, and otherwise only grant statements follow. -/
theorem privilege_revoke_structure (m : ObjectMetadata) (name objType : String)
    (h : m.Privileges ≠ []) :
    privilegeStatements m name objType
      = revokePublicStatement name objType ::
          ((if ownerNeedsRevoke m objType then [revokeOwnerStatement name objType m.Owner]
            else [])
            ++ m.Privileges.map (fun a => grantStatement a name objType))
    ∧ (ownerNeedsRevoke m objType = true ↔
        m.Owner ≠ "" ∧ ∃ a ∈ m.Privileges, a.Grantee = m.Owner
          ∧ a.hasAllPrivileges objType = false) := by
  have hne : m.Privileges.isEmpty = false := by
    simpa [List.isEmpty_eq_false] using h
  constructor
  · simp [privilegeStatements, hne]
  · simp [ownerNeedsRevoke, List.any_eq_true, Bool.and_eq_true, bne_iff_ne,
      beq_iff_eq, Bool.not_eq_true']

theorem privilege_revoke_structure_witness :
    ownerPrivMetadata.Privileges ≠ []
    ∧ (privilegeStatements ownerPrivMetadata "public.tablename" "TABLE"
        = revokePublicStatement "public.tablename" "TABLE" ::
            ((if ownerNeedsRevoke ownerPrivMetadata "TABLE" then
                [revokeOwnerStatement "public.tablename" "TABLE" ownerPrivMetadata.Owner]
              else [])
              ++ ownerPrivMetadata.Privileges.map
                  (fun a => grantStatement a "public.tablename" "TABLE"))
      ∧ (ownerNeedsRevoke ownerPrivMetadata "TABLE" = true ↔
          ownerPrivMetadata.Owner ≠ ""
            ∧ ∃ a ∈ ownerPrivMetadata.Privileges, a.Grantee = ownerPrivMetadata.Owner
              ∧ a.hasAllPrivileges "TABLE" = false)) :=
  ⟨by decide, privilege_revoke_structure ownerPrivMetadata "public.tablename" "TABLE" (by decide)⟩

/-- C2: every grantee yields exactly one grant statement, in list
order; the statement grants ALL when the grantee holds every privilege
kind and otherwise lists the held privilege keywords in the fixed
canonical order, and the with grant option suffix appears exactly when
every privilege held by the grantee carries the grant option flag. -/
theorem grant_statement_shape (m : ObjectMetadata) (name objType : String) (a b : ACL)
    (ha : (privKindsFor objType).all a.held = true)
    (hb : (privKindsFor objType).all b.held = false) :
    privilegeStatements m name objType
      = revokeStatements m name objType
          ++ m.Privileges.map (fun x => grantStatement x name objType)
    ∧ grantStatement a name objType
      = "GRANT " ++ grantPrivText a objType ++ " ON " ++ objType ++ " " ++ name ++ " TO "
          ++ granteeOrPublic a.Grantee ++ grantSuffix a objType ++ ";"
    ∧ grantPrivText a objType = "ALL"
    ∧ grantPrivText b objType
      = String.intercalate "," (((privKindsFor objType).filter b.held).map PrivKind.keyword)
    ∧ grantSuffix a objType
      = (if ((privKindsFor objType).filter a.held).all a.grantedWithGrant
         then " WITH GRANT OPTION" else "")
    ∧ grantStatement aclAllTable "public.tablename" "TABLE"
      = "GRANT ALL ON TABLE public.tablename TO anothertestrole;"
    ∧ grantStatement aclMostTable "public.tablename" "TABLE"
      = "GRANT SELECT,INSERT,UPDATE,DELETE,TRUNCATE,REFERENCES ON TABLE public.tablename TO testrole;"
    ∧ grantStatement aclMostTableWithGrant "public.tablename" "TABLE"
      = "GRANT SELECT,INSERT,UPDATE,DELETE,TRUNCATE,REFERENCES ON TABLE public.tablename TO testrole WITH GRANT OPTION;"
    ∧ grantStatement aclSingleTable "public.tablename" "TABLE"
      = "GRANT TRIGGER ON TABLE public.tablename TO PUBLIC;" := by
  refine ⟨?_, rfl, ?_, ?_, rfl, by decide, by decide, by decide, by decide⟩
  · by_cases hp : m.Privileges.isEmpty
    · have : m.Privileges = [] := by simpa [List.isEmpty_iff] using hp
      simp [privilegeStatements, revokeStatements, this]
    · have hne : m.Privileges.isEmpty = false := by simpa using hp
      simp [privilegeStatements, revokeStatements, hne]
  · simp [grantPrivText, ACL.hasAllPrivileges, ha]
  · simp [grantPrivText, ACL.hasAllPrivileges, hb]

theorem grant_statement_shape_witness :
    (privKindsFor "TABLE").all aclAllTable.held = true
    ∧ (privKindsFor "TABLE").all aclMostTable.held = false
    ∧ (privilegeStatements ownerPrivMetadata "public.tablename" "TABLE"
        = revokeStatements ownerPrivMetadata "public.tablename" "TABLE"
            ++ ownerPrivMetadata.Privileges.map
                (fun x => grantStatement x "public.tablename" "TABLE")
      ∧ grantStatement aclAllTable "public.tablename" "TABLE"
        = "GRANT " ++ grantPrivText aclAllTable "TABLE" ++ " ON " ++ "TABLE" ++ " "
            ++ "public.tablename" ++ " TO " ++ granteeOrPublic aclAllTable.Grantee
            ++ grantSuffix aclAllTable "TABLE" ++ ";"
      ∧ grantPrivText aclAllTable "TABLE" = "ALL"
      ∧ grantPrivText aclMostTable "TABLE"
        = String.intercalate ","
            (((privKindsFor "TABLE").filter aclMostTable.held).map PrivKind.keyword)
      ∧ grantSuffix aclAllTable "TABLE"
        = (if ((privKindsFor "TABLE").filter aclAllTable.held).all aclAllTable.grantedWithGrant
           then " WITH GRANT OPTION" else "")
      ∧ grantStatement aclAllTable "public.tablename" "TABLE"
        = "GRANT ALL ON TABLE public.tablename TO anothertestrole;"
      ∧ grantStatement aclMostTable "public.tablename" "TABLE"
        = "GRANT SELECT,INSERT,UPDATE,DELETE,TRUNCATE,REFERENCES ON TABLE public.tablename TO testrole;"
      ∧ grantStatement aclMostTableWithGrant "public.tablename" "TABLE"
        = "GRANT SELECT,INSERT,UPDATE,DELETE,TRUNCATE,REFERENCES ON TABLE public.tablename TO testrole WITH GRANT OPTION;"
      ∧ grantStatement aclSingleTable "public.tablename" "TABLE"
        = "GRANT TRIGGER ON TABLE public.tablename TO PUBLIC;") :=
  ⟨by decide, by decide,
    grant_statement_shape ownerPrivMetadata "public.tablename" "TABLE" aclAllTable aclMostTable
      (by decide) (by decide)⟩

/-- C3: ParseACL scans the privilege characters left to right; a
recognized character followed by the grant option marker sets the
with grant flag of its capability instead of the granted flag, and the
scenario string parses to exactly the claimed record. -/
theorem parseACL_scan (acl : ACL) (c c2 : Char) (cs : List Char) (h : c2 ≠ star) :
    scanPrivChars (c :: star :: cs) acl = scanPrivChars cs (applyPriv acl c true)
    ∧ scanPrivChars (c :: c2 :: cs) acl = scanPrivChars (c2 :: cs) (applyPriv acl c false)
    ∧ ParseACL "testrole=ar*w*d*tXUCTc/gpadmin" = some aclScanExpected := by
  refine ⟨?_, ?_, by decide⟩
  · simp [scanPrivChars]
  · simp [scanPrivChars, h]

theorem parseACL_scan_witness :
    ('w' ≠ star)
    ∧ (scanPrivChars ('r' :: star :: ['w']) {} = scanPrivChars ['w'] (applyPriv {} 'r' true)
      ∧ scanPrivChars ('r' :: 'w' :: ['w']) {} = scanPrivChars ('w' :: ['w']) (applyPriv {} 'r' false)
      ∧ ParseACL "testrole=ar*w*d*tXUCTc/gpadmin" = some aclScanExpected) :=
  ⟨by decide, parseACL_scan {} 'r' 'w' ['w'] (by decide)⟩

/-- C4: the rendered metadata consists of the comment, owner and
privilege blocks in that fixed order, the non empty blocks separated by
exactly one blank line, and an object with no comment, owner or
privileges renders as the empty string. -/
theorem printObjectMetadata_blocks (m m0 : ObjectMetadata) (name objType : String)
    (h1 : m0.Comment = "") (h2 : m0.Owner = "") (h3 : m0.Privileges = []) :
    PrintObjectMetadata m name objType
      = String.intercalate "\n\n"
          (([commentStatement m name objType, ownerStatement m name objType,
             privilegeBlock m name objType]).filter (fun b => b != ""))
    ∧ PrintObjectMetadata m0 name objType = ""
    ∧ PrintObjectMetadata tableMetadataExample "public.tablename" "TABLE"
      = "COMMENT ON TABLE public.tablename IS " ++ sqs ++ "This is a table comment." ++ sqs
          ++ ";\n\nALTER TABLE public.tablename OWNER TO testrole;\n\n"
          ++ "REVOKE ALL ON TABLE public.tablename FROM PUBLIC;\n"
          ++ "REVOKE ALL ON TABLE public.tablename FROM testrole;\n"
          ++ "GRANT ALL ON TABLE public.tablename TO anothertestrole;\n"
          ++ "GRANT SELECT,INSERT,UPDATE,DELETE,TRUNCATE,REFERENCES ON TABLE public.tablename TO testrole;\n"
          ++ "GRANT TRIGGER ON TABLE public.tablename TO PUBLIC;" := by
  refine ⟨rfl, ?_, by decide⟩
  simp [PrintObjectMetadata, commentStatement, ownerStatement, privilegeBlock,
    privilegeStatements, h1, h2, h3, String.intercalate]

theorem printObjectMetadata_blocks_witness :
    (({} : ObjectMetadata).Comment = "" ∧ ({} : ObjectMetadata).Owner = ""
      ∧ ({} : ObjectMetadata).Privileges = [])
    ∧ (PrintObjectMetadata tableMetadataExample "public.tablename" "TABLE"
        = String.intercalate "\n\n"
            (([commentStatement tableMetadataExample "public.tablename" "TABLE",
               ownerStatement tableMetadataExample "public.tablename" "TABLE",
               privilegeBlock tableMetadataExample "public.tablename" "TABLE"]).filter
              (fun b => b != ""))
      ∧ PrintObjectMetadata {} "public.tablename" "TABLE" = ""
      ∧ PrintObjectMetadata tableMetadataExample "public.tablename" "TABLE"
        = "COMMENT ON TABLE public.tablename IS " ++ sqs ++ "This is a table comment." ++ sqs
            ++ ";\n\nALTER TABLE public.tablename OWNER TO testrole;\n\n"
            ++ "REVOKE ALL ON TABLE public.tablename FROM PUBLIC;\n"
            ++ "REVOKE ALL ON TABLE public.tablename FROM testrole;\n"
            ++ "GRANT ALL ON TABLE public.tablename TO anothertestrole;\n"
            ++ "GRANT SELECT,INSERT,UPDATE,DELETE,TRUNCATE,REFERENCES ON TABLE public.tablename TO testrole;\n"
            ++ "GRANT TRIGGER ON TABLE public.tablename TO PUBLIC;") :=
  ⟨⟨rfl, rfl, rfl⟩,
    printObjectMetadata_blocks tableMetadataExample {} "public.tablename" "TABLE" rfl rfl rfl⟩

theorem splitFkLoop_go (cs : List Constraint) :
    ∀ acc1 acc2 : List Constraint,
      cs.foldl
          (fun acc c =>
            if c.ConType == "f" then (acc.1, acc.2 ++ [c]) else (acc.1 ++ [c], acc.2))
          (acc1, acc2)
        = (acc1 ++ cs.filter (fun c => !(c.ConType == "f")),
           acc2 ++ cs.filter (fun c => c.ConType == "f")) := by
  induction cs with
  | nil => intro acc1 acc2; simp
  | cons c cs ih =>
      intro acc1 acc2
      cases hf : c.ConType == "f"
      · simp only [List.foldl_cons, hf, Bool.false_eq_true, if_false, ih,
          List.filter_cons, Bool.not_false]
        simp [List.append_assoc]
      · simp only [List.foldl_cons, hf, if_true, ih, List.filter_cons, Bool.not_true]
        simp [List.append_assoc]

theorem splitFkLoop_eq (cs : List Constraint) :
    splitFkLoop cs
      = (cs.filter (fun c => !(c.ConType == "f")), cs.filter (fun c => c.ConType == "f")) := by
  unfold splitFkLoop
  simpa using splitFkLoop_go cs [] []

theorem constraintOrder_eq (cs : List Constraint) :
    constraintOrder cs
      = cs.filter (fun c => !(c.ConType == "f")) ++ cs.filter (fun c => c.ConType == "f") := by
  unfold constraintOrder
  rw [splitFkLoop_eq]

theorem filter_not_append_filter_perm (p : Constraint → Bool) (l : List Constraint) :
    (l.filter (fun c => !(p c)) ++ l.filter p).Perm l := by
  induction l with
  | nil => simp
  | cons x xs ih =>
      cases hp : p x
      · simpa [List.filter_cons, hp] using ih.cons x
      · simp only [List.filter_cons, hp, Bool.not_true, Bool.false_eq_true, if_false, if_true]
        exact List.perm_middle.trans (ih.cons x)

theorem constraintOrder_perm (cs : List Constraint) : (constraintOrder cs).Perm cs := by
  rw [constraintOrder_eq]
  exact filter_not_append_filter_perm (fun c => c.ConType == "f") cs

/-- C5: over any input list and any permutation of it the constraint
renderer emits all non foreign key constraints first, in their original
relative order, then all foreign key constraints in their original
relative order. -/
theorem constraint_fk_order (cs cs' : List Constraint) (m : MetadataMap)
    (h : cs.Perm cs') :
    constraintOrder cs'
      = cs'.filter (fun c => !(c.ConType == "f")) ++ cs'.filter (fun c => c.ConType == "f")
    ∧ List.Sublist (cs'.filter (fun c => !(c.ConType == "f"))) cs'
    ∧ List.Sublist (cs'.filter (fun c => c.ConType == "f")) cs'
    ∧ (constraintOrder cs).Perm (constraintOrder cs')
    ∧ PrintConstraintStatements cs' m
      = concatLists
          (((cs'.filter (fun c => !(c.ConType == "f"))
              ++ cs'.filter (fun c => c.ConType == "f")).filter
                (fun c => !c.IsDomainConstraint)).map
            (fun c => constraintStatement c :: constraintComment m c)) := by
  refine ⟨constraintOrder_eq cs', List.filter_sublist _, List.filter_sublist _, ?_, ?_⟩
  · exact (constraintOrder_perm cs).trans (h.trans (constraintOrder_perm cs').symm)
  · unfold PrintConstraintStatements eligibleConstraints
    rw [constraintOrder_eq]

theorem constraint_fk_order_witness :
    (List.Perm [foreignTwo, uniqueOne] [uniqueOne, foreignTwo])
    ∧ (constraintOrder [uniqueOne, foreignTwo]
        = [uniqueOne, foreignTwo].filter (fun c => !(c.ConType == "f"))
            ++ [uniqueOne, foreignTwo].filter (fun c => c.ConType == "f")
      ∧ List.Sublist ([uniqueOne, foreignTwo].filter (fun c => !(c.ConType == "f")))
          [uniqueOne, foreignTwo]
      ∧ List.Sublist ([uniqueOne, foreignTwo].filter (fun c => c.ConType == "f"))
          [uniqueOne, foreignTwo]
      ∧ (constraintOrder [foreignTwo, uniqueOne]).Perm (constraintOrder [uniqueOne, foreignTwo])
      ∧ PrintConstraintStatements [uniqueOne, foreignTwo] []
        = concatLists
            ((([uniqueOne, foreignTwo].filter (fun c => !(c.ConType == "f"))
                ++ [uniqueOne, foreignTwo].filter (fun c => c.ConType == "f")).filter
                  (fun c => !c.IsDomainConstraint)).map
              (fun c => constraintStatement c :: constraintComment [] c))) :=
  ⟨List.Perm.swap uniqueOne foreignTwo [],
    constraint_fk_order [foreignTwo, uniqueOne] [uniqueOne, foreignTwo] []
      (List.Perm.swap uniqueOne foreignTwo [])⟩

/-- C7: the single unique constraint of the scenario renders exactly
its alter table only statement, and with the partition parent flag the
same statement without the ONLY keyword. -/
theorem constraint_unique_scenario :
    PrintConstraintStatements [uniqueOne] []
      = ["ALTER TABLE ONLY public.tablename ADD CONSTRAINT tablename_i_key UNIQUE (i);"]
    ∧ PrintConstraintStatements [{ uniqueOne with IsPartitionParent := true }] []
      = ["ALTER TABLE public.tablename ADD CONSTRAINT tablename_i_key UNIQUE (i);"] := by
  constructor
  · decide
  · decide

theorem count_filter_pos (p : Constraint → Bool) (c : Constraint) (l : List Constraint)
    (h : p c = true) : (l.filter p).count c = l.count c := by
  induction l with
  | nil => simp
  | cons x xs ih =>
      rcases eq_or_ne c x with hx | hx
      · subst hx
        simp [List.filter_cons, h, List.count_cons, ih]
      · cases hp : p x
        · simp [List.filter_cons, hp, List.count_cons, hx, ih]
        · simp [List.filter_cons, hp, List.count_cons, hx, ih]

theorem count_filter_neg (p : Constraint → Bool) (c : Constraint) (l : List Constraint)
    (h : p c = false) : (l.filter p).count c = 0 := by
  induction l with
  | nil => simp
  | cons x xs ih =>
      cases hp : p x
      · simp [List.filter_cons, hp, ih]
      · have hx : c ≠ x := by
          rintro rfl
          rw [hp] at h
          cases h
        simp [List.filter_cons, hp, List.count_cons, hx, ih]

theorem inlined_count_single (c : Constraint) (cs : List Constraint) (o : Sortable) :
    (inlinedConstraints cs o).count c
      = if isOwningDomain c.OwningObject o then cs.count c else 0 := by
  cases o with
  | func f => simp [inlinedConstraints, isOwningDomain]
  | rel r => simp [inlinedConstraints, isOwningDomain]
  | typ t =>
      cases hk : (t.Kind == "d")
      · simp [inlinedConstraints, isOwningDomain, hk]
      · cases hq : (typeFQN t == c.OwningObject)
        · have hqc : (c.OwningObject == typeFQN t) = false := by
            simp only [beq_eq_false_iff_ne, ne_eq] at hq ⊢
            exact fun e => hq e.symm
          have h0 := count_filter_neg (fun x => x.OwningObject == typeFQN t) c cs hqc
          simp [inlinedConstraints, isOwningDomain, hk, hq, h0]
        · have hqc : (c.OwningObject == typeFQN t) = true := by
            simp only [beq_iff_eq] at hq ⊢
            exact hq.symm
          have h0 := count_filter_pos (fun x => x.OwningObject == typeFQN t) c cs hqc
          simp [inlinedConstraints, isOwningDomain, hk, hq, h0]

theorem inlined_count_sum (c : Constraint) (cs : List Constraint) (objs : List Sortable) :
    ((objs.map (fun o => (inlinedConstraints cs o).count c)).sum)
      = (objs.countP (isOwningDomain c.OwningObject)) * cs.count c := by
  induction objs with
  | nil => simp
  | cons o os ih =>
      simp only [List.map_cons, List.sum_cons, List.countP_cons]
      rw [inlined_count_single c cs o, ih]
      cases ho : isOwningDomain c.OwningObject o
      · simp [ho]
      · simp only [ho, if_true, Nat.add_mul, Nat.one_mul]
        omega

theorem strAppend_assoc (a b c : String) : (a ++ b) ++ c = a ++ (b ++ c) := by
  obtain ⟨la⟩ := a
  obtain ⟨lb⟩ := b
  obtain ⟨lc⟩ := c
  show String.mk ((la ++ lb) ++ lc) = String.mk (la ++ (lb ++ lc))
  rw [List.append_assoc]

theorem strConcat_append (xs ys : List String) :
    strConcat (xs ++ ys) = strConcat xs ++ strConcat ys := by
  induction xs with
  | nil =>
      show strConcat ys = "" ++ strConcat ys
      obtain ⟨l⟩ := strConcat ys
      rfl
  | cons x xs ih =>
      show x ++ strConcat (xs ++ ys) = (x ++ strConcat xs) ++ strConcat ys
      rw [ih, strAppend_assoc]

/-- C6: a domain check constraint is never emitted as a standalone
alter table statement by the constraint renderer, and the dependency
ordered renderer inlines it exactly once, as a constraint clause inside
the create domain statement of its owning domain. -/
theorem domain_constraint_inlined (c : Constraint) (cs l : List Constraint)
    (objs : List Sortable) (t : Type') (m : MetadataMap)
    (tds : List (Nat × TableDefinition))
    (h1 : c.IsDomainConstraint = true)
    (h2 : cs.count c = 1)
    (h3 : objs.countP (isOwningDomain c.OwningObject) = 1)
    (h5 : isOwningDomain c.OwningObject (Sortable.typ t) = true) :
    c ∉ eligibleConstraints l
    ∧ PrintConstraintStatements [c] m = []
    ∧ (objs.map (fun o => (inlinedConstraints cs o).count c)).sum = 1
    ∧ c ∈ inlinedConstraints cs (Sortable.typ t)
    ∧ (∃ pre post, renderDomain t cs = pre ++ domainConstraintClause c ++ post)
    ∧ renderSortable m tds cs (Sortable.typ t)
      = some (renderDomain t cs :: metadataBlockList m t.Oid (typeFQN t) "DOMAIN")
    ∧ PrintCreateDependentTypeAndFunctionAndTablesStatements [Sortable.typ t] m tds cs
      = some (renderDomain t cs :: metadataBlockList m t.Oid (typeFQN t) "DOMAIN") := by
  have hk : (t.Kind == "d") = true ∧ (typeFQN t == c.OwningObject) = true := by
    simpa [isOwningDomain, Bool.and_eq_true] using h5
  have hkind : t.Kind = "d" := by simpa [beq_iff_eq] using hk.1
  have hfqn : typeFQN t = c.OwningObject := by simpa [beq_iff_eq] using hk.2
  have hpred : (c.OwningObject == typeFQN t) = true := by simp [beq_iff_eq, hfqn]
  have hcmem : c ∈ cs := by
    by_contra hno
    rw [List.count_eq_zero_of_not_mem hno] at h2
    exact absurd h2 (by decide)
  have hmemf : c ∈ cs.filter (fun x => x.OwningObject == typeFQN t) :=
    List.mem_filter.mpr ⟨hcmem, hpred⟩
  have hrender : renderSortable m tds cs (Sortable.typ t)
      = some (renderDomain t cs :: metadataBlockList m t.Oid (typeFQN t) "DOMAIN") := by
    simp [renderSortable, hkind]
  refine ⟨?_, ?_, ?_, ?_, ?_, hrender, ?_⟩
  · intro hmem
    have hh := (List.mem_filter.mp hmem).2
    rw [h1] at hh
    exact absurd hh (by decide)
  · have helig : eligibleConstraints [c] = [] := by
      unfold eligibleConstraints
      rw [constraintOrder_eq]
      cases hf : (c.ConType == "f") <;> simp [List.filter_cons, hf, h1]
    simp [PrintConstraintStatements, helig, concatLists]
  · rw [inlined_count_sum, h3, h2]
  · simp only [inlinedConstraints, hk.1, if_true]
    exact hmemf
  · obtain ⟨s1, s2, hsplit⟩ := List.append_of_mem hmemf
    refine ⟨"CREATE DOMAIN " ++ typeFQN t ++ " AS " ++ t.BaseType
        ++ strConcat (s1.map domainConstraintClause),
      strConcat (s2.map domainConstraintClause) ++ ";", ?_⟩
    unfold renderDomain
    rw [hsplit, List.map_append, strConcat_append, List.map_cons]
    have hcons : strConcat (domainConstraintClause c :: s2.map domainConstraintClause)
        = domainConstraintClause c ++ strConcat (s2.map domainConstraintClause) := rfl
    rw [hcons]
    simp [strAppend_assoc]
  · simp [PrintCreateDependentTypeAndFunctionAndTablesStatements, hrender]

theorem domain_constraint_inlined_witness :
    (domainCheckExample.IsDomainConstraint = true
      ∧ [domainCheckExample].count domainCheckExample = 1
      ∧ sortableExamples.countP (isOwningDomain domainCheckExample.OwningObject) = 1
      ∧ isOwningDomain domainCheckExample.OwningObject (Sortable.typ domainTypeExample) = true)
    ∧ (domainCheckExample ∉ eligibleConstraints [domainCheckExample]
      ∧ PrintConstraintStatements [domainCheckExample] [] = []
      ∧ (sortableExamples.map
          (fun o => (inlinedConstraints [domainCheckExample] o).count domainCheckExample)).sum = 1
      ∧ domainCheckExample ∈ inlinedConstraints [domainCheckExample] (Sortable.typ domainTypeExample)
      ∧ (∃ pre post, renderDomain domainTypeExample [domainCheckExample]
          = pre ++ domainConstraintClause domainCheckExample ++ post)
      ∧ renderSortable [] tableDefsExample [domainCheckExample] (Sortable.typ domainTypeExample)
        = some (renderDomain domainTypeExample [domainCheckExample] ::
            metadataBlockList [] domainTypeExample.Oid (typeFQN domainTypeExample) "DOMAIN")
      ∧ PrintCreateDependentTypeAndFunctionAndTablesStatements
            [Sortable.typ domainTypeExample] [] tableDefsExample [domainCheckExample]
        = some (renderDomain domainTypeExample [domainCheckExample] ::
            metadataBlockList [] domainTypeExample.Oid (typeFQN domainTypeExample) "DOMAIN")) :=
  ⟨⟨by decide, by decide, by decide, by decide⟩,
    domain_constraint_inlined domainCheckExample [domainCheckExample] [domainCheckExample]
      sortableExamples domainTypeExample [] tableDefsExample
      (by decide) (by decide) (by decide) (by decide)⟩
